import Mathlib

/-!
# ByteViewText (ui/qt/widgets/byte_view_text.cpp)

A shallow embedding of the hex-dump widget: the line composer `drawLine`, the
format-range builders, the pixel table `x_pos_to_column_`, the pixel lookup
`byteOffsetAtPixel`, the mouse handlers and the scrollbar bookkeeping.

Conventions.
* C++ `int` values are `Int` (no overflow is modelled: every quantity is bounded
  by the buffer length or by a pixel count); `/` and `%` are the truncating
  `Int.tdiv` and `Int.tmod`.
* `QByteArray data_` is a `List Nat` of byte values, `QString` a `List Char`,
  `QVector<int>` a `List Int`, `QList<FormatRange>` a `List FormatRange`.
* `recent.gui_bytes_view`, a process-wide setting, is carried in the widget record.
* `viewport()->update()` only schedules a repaint and is not represented.
-/

namespace ByteViewText

/-- The display preference `bytes_view_type` of `recent.gui_bytes_view`. -/
inductive bytes_view_type where
  | BYTES_HEX
  | BYTES_BITS
deriving DecidableEq, Repr

/-- The character encoding `packet_char_enc` of the decoded column. -/
inductive packet_char_enc where
  | PACKET_CHAR_ENC_CHAR_ASCII
  | PACKET_CHAR_ENC_CHAR_EBCDIC
deriving DecidableEq, Repr

/-- The enum `ByteViewText::HighlightMode`. -/
inductive HighlightMode where
  | ModeNormal
  | ModeField
  | ModeProtocol
  | ModeOffsetNormal
  | ModeOffsetField
  | ModeHover
deriving DecidableEq, Repr

/-- A `QTextLayout::FormatRange`: the character span and, standing for the colours
`addFormatRange` picks from the palette, the highlight mode it was built with. -/
structure FormatRange where
  start : Int
  length : Int
  mode : HighlightMode
deriving DecidableEq, Repr

/-- The part of a `QScrollBar` the widget reads and writes. -/
structure ScrollBar where
  minimum : Int
  maximum : Int
  value : Int
deriving DecidableEq, Repr

/-- Qt's `QAbstractSlider::setRange`: the maximum is raised to the minimum and the
value is clamped into the new range. -/
def ScrollBar.setRange (sb : ScrollBar) (lo hi : Int) : ScrollBar :=
  let hi2 := max lo hi
  { minimum := lo, maximum := hi2, value := max lo (min sb.value hi2) }

/-- What the widget takes from code outside this file: `DataPrinter::separatorInterval()`,
`DataPrinter::hexChars()` (which depends on the display preference) and the table
`EBCDIC_to_ASCII1`. They are parameters of the model. -/
structure Extern where
  separatorInterval : Int
  hexChars : bytes_view_type → Int
  EBCDIC_to_ASCII1 : Nat → Nat

/-- The fields of `ByteViewText` the modelled routines use, with the global
`recent.gui_bytes_view` and the geometry the toolkit reports. -/
structure Widget where
  data_ : List Nat
  encoding_ : packet_char_enc
  hovered_byte_offset_ : Int
  hovered_byte_lock_ : Bool
  proto_start_ : Int
  proto_len_ : Int
  field_start_ : Int
  field_len_ : Int
  field_a_start_ : Int
  field_a_len_ : Int
  show_offset_ : Bool
  show_hex_ : Bool
  show_ascii_ : Bool
  row_width_ : Int
  font_width_ : Int
  line_height_ : Int
  x_pos_to_column_ : List Int
  gui_bytes_view : bytes_view_type
  verticalScrollBar : ScrollBar
  horizontalScrollBar : ScrollBar
  height : Int
  viewport_height : Int
  viewport_width : Int

/-- A `QPoint`. -/
structure QPoint where
  x : Int
  y : Int
deriving DecidableEq, Repr

/-- The method `isEmpty`. -/
def isEmpty (w : Widget) : Bool := w.data_.isEmpty

/-- The call `data_.count()`. -/
def count (w : Widget) : Int := (w.data_.length : Int)

/-- The byte `data_[tvb_pos]`. -/
def byteAt (w : Widget) (tvb_pos : Int) : Nat := w.data_.getD tvb_pos.toNat 0

/-- The method `offsetChars(bool include_pad)`; the header's default argument is `true`. -/
def offsetChars (w : Widget) (include_pad : Bool) : Int :=
  let padding : Int := if include_pad then 2 else 0
  if !isEmpty w && decide (count w > 0xffff) then 8 + padding else 4 + padding

/-- Monospace font: `fontMetrics().width(text)` is the number of characters times
`font_width_`. -/
def fontMetricsWidth (w : Widget) (text : List Char) : Int :=
  (text.length : Int) * w.font_width_

/-- The call `QVector<int>().fill(value, size)`: `size` copies of `value`, none when
`size` is not positive. -/
def fill (value : Int) (size : Int) : List Int := List.replicate size.toNat value

/-- The call `QString(size, ch)`: empty when `size` is not positive. -/
def qstringFill (size : Int) (ch : Char) : List Char := List.replicate size.toNat ch

/-- The call `x_pos_to_column_.value(x, -1)`. -/
def vectorValue (v : List Int) (x : Int) (dflt : Int) : Int :=
  if 0 ≤ x ∧ x < (v.length : Int) then v.getD x.toNat dflt else dflt

/-- Qt's `QString::arg(int a, int fieldWidth, int base = 16, QChar fillChar)` for a
non-negative `a`: lowercase hexadecimal digits, padded on the left to `fieldWidth`. -/
def argHex (a : Int) (fieldWidth : Int) (fillChar : Char) : List Char :=
  let digits := Nat.toDigits 16 a.toNat
  qstringFill (fieldWidth - (digits.length : Int)) fillChar ++ digits

/-- The table `hexchars` of `drawLine`. -/
def hexchars : List Char :=
  ['0', '1', '2', '3', '4', '5', '6', '7'] ++
  ['8', '9', 'a', 'b', 'c', 'd', 'e', 'f']

/-- The character `hexchars[(b & 0xf0) >> 4]`. -/
def hexHigh (b : Nat) : Char := hexchars.getD ((b &&& 0xf0) >>> 4) '0'

/-- The character `hexchars[b & 0x0f]`. -/
def hexLow (b : Nat) : Char := hexchars.getD (b &&& 0x0f) '0'

/-- The character `(b & (1 << j)) ? '1' : '0'`. -/
def bitChar (b : Nat) (j : Nat) : Char := if b &&& (1 <<< j) ≠ 0 then '1' else '0'

/-- The characters the `switch (recent.gui_bytes_view)` of `drawLine` appends for one byte. -/
def byteChars (view : bytes_view_type) (b : Nat) : List Char :=
  match view with
  | .BYTES_HEX => [hexHigh b, hexLow b]
  | .BYTES_BITS => [7, 6, 5, 4, 3, 2, 1, 0].map (bitChar b)

/-- GLib's `g_ascii_isprint`. -/
def g_ascii_isprint (c : Nat) : Bool := decide (0x20 ≤ c) && decide (c < 0x7f)

/-- The character of the decoded column for one byte: the byte (through
`EBCDIC_to_ASCII1` when the encoding is EBCDIC), or a middle dot when not printable. -/
def asciiChar (env : Extern) (w : Widget) (b : Nat) : Char :=
  let c : Nat :=
    (if w.encoding_ = .PACKET_CHAR_ENC_CHAR_EBCDIC then env.EBCDIC_to_ASCII1 b else b) % 256
  if g_ascii_isprint c then Char.ofNat c else '·'

/-- The line and the pixel table while `drawLine` composes a row. -/
structure LineBuild where
  line : List Char
  x_pos : List Int
deriving DecidableEq, Repr

/-- The test `(tvb_pos != offset) && ((tvb_pos % separator_interval_) == 0)`. -/
def isSeparator (env : Extern) (offset tvb_pos : Int) : Bool :=
  decide (tvb_pos ≠ offset) && decide (Int.tmod tvb_pos env.separatorInterval = 0)

/-- One iteration of the hex loop of `drawLine` (lines 316-339). The separator entry of
the pixel table is appended whether or not the table is being built. -/
def hexBody (env : Extern) (w : Widget) (build_x_pos : Bool) (offset slop : Int)
    (st : LineBuild) (tvb_pos : Int) : LineBuild :=
  let line1 := st.line ++ [' ']
  let sep := isSeparator env offset tvb_pos
  let line2 := if sep then line1 ++ [' '] else line1
  let x1 := if sep then st.x_pos ++ fill (tvb_pos - offset - 1) w.font_width_ else st.x_pos
  let line3 := line2 ++ byteChars w.gui_bytes_view (byteAt w tvb_pos)
  let x2 :=
    if build_x_pos then
      x1 ++ fill (tvb_pos - offset) (fontMetricsWidth w line3 - (x1.length : Int) + slop)
    else x1
  { line := line3, x_pos := x2 }

/-- One iteration of the ASCII loop of `drawLine` (lines 357-378). -/
def asciiBody (env : Extern) (w : Widget) (build_x_pos : Bool) (offset : Int)
    (st : LineBuild) (tvb_pos : Int) : LineBuild :=
  let sep := isSeparator env offset tvb_pos
  let line1 := if sep then st.line ++ [' '] else st.line
  let x1 :=
    if sep && build_x_pos then
      st.x_pos ++ fill (tvb_pos - offset - 1) (Int.tdiv w.font_width_ 2)
    else st.x_pos
  let line2 := line1 ++ [asciiChar env w (byteAt w tvb_pos)]
  let x2 :=
    if build_x_pos then
      x1 ++ fill (tvb_pos - offset) (fontMetricsWidth w line2 - (x1.length : Int))
    else x1
  { line := line2, x_pos := x2 }

/-- The loop `for (tvb_pos = offset; tvb_pos <= max_tvb_pos; tvb_pos++)`. -/
def forTvbPos (body : LineBuild → Int → LineBuild) (offset max_tvb_pos : Int)
    (st : LineBuild) : LineBuild :=
  (List.range (max_tvb_pos - offset + 1).toNat).foldl
    (fun (acc : LineBuild) (i : Nat) => body acc (offset + (i : Int))) st

/-- The method `addFormatRange`: the result and the format list afterwards. -/
def addFormatRange (fmt_list : List FormatRange) (start length : Int) (mode : HighlightMode) :
    Bool × List FormatRange :=
  if length < 1 ∨ mode = .ModeNormal then (false, fmt_list)
  else (true, fmt_list ++ [{ start := start, length := length, mode := mode }])

/-- The method `addHexFormatRange`. -/
def addHexFormatRange (env : Extern) (w : Widget) (fmt_list : List FormatRange)
    (mark_start mark_length tvb_offset max_tvb_pos : Int) (mode : HighlightMode) :
    Bool × List FormatRange :=
  let mark_end := mark_start + mark_length - 1
  if mark_start < 0 ∨ mark_length < 1 then (false, fmt_list)
  else if mark_start > max_tvb_pos ∧ mark_end < tvb_offset then (false, fmt_list)
  else
    let chars_per_byte : Int := if w.gui_bytes_view = .BYTES_HEX then 3 else 9
    let byte_start := max tvb_offset mark_start - tvb_offset
    let byte_end := min max_tvb_pos mark_end - tvb_offset
    let fmt_start := offsetChars w true + 1
      + Int.tdiv byte_start env.separatorInterval
      + byte_start * chars_per_byte
    let fmt_length := offsetChars w true + 1
      + Int.tdiv byte_end env.separatorInterval
      + byte_end * chars_per_byte
      + 2
      - fmt_start
    addFormatRange fmt_list fmt_start fmt_length mode

/-- The method `addAsciiFormatRange`. -/
def addAsciiFormatRange (env : Extern) (w : Widget) (fmt_list : List FormatRange)
    (mark_start mark_length tvb_offset max_tvb_pos : Int) (mode : HighlightMode) :
    Bool × List FormatRange :=
  let mark_end := mark_start + mark_length - 1
  if mark_start < 0 ∨ mark_length < 1 then (false, fmt_list)
  else if mark_start > max_tvb_pos ∧ mark_end < tvb_offset then (false, fmt_list)
  else
    let byte_start := max tvb_offset mark_start - tvb_offset
    let byte_end := min max_tvb_pos mark_end - tvb_offset
    let fmt_start := offsetChars w true + env.hexChars w.gui_bytes_view + 3
      + Int.tdiv byte_start env.separatorInterval
      + byte_start
    let fmt_length := offsetChars w true + env.hexChars w.gui_bytes_view + 3
      + Int.tdiv byte_end env.separatorInterval
      + byte_end
      + 1
      - fmt_start
    addFormatRange fmt_list fmt_start fmt_length mode

/-- The value `max_tvb_pos = qMin(offset + row_width_, tvb_len) - 1` of `drawLine`. -/
def maxTvbPos (w : Widget) (offset : Int) : Int :=
  min (offset + w.row_width_) (count w) - 1

/-- What `drawLine` hands to the text layout. -/
structure DrawnLine where
  line : List Char
  fmt_list : List FormatRange
deriving DecidableEq, Repr

/-- The offset part of `drawLine` (lines 298-304). -/
def drawOffset (w : Widget) (build_x_pos : Bool) (offset : Int) (st : LineBuild) : LineBuild :=
  if w.show_offset_ then
    let line := [' '] ++ argHex offset (offsetChars w false) '0' ++ [' ']
    { line := line,
      x_pos := if build_x_pos then fill (-1) (fontMetricsWidth w line) else st.x_pos }
  else st

/-- The text part of the hex block of `drawLine` (lines 308-343). -/
def drawHexText (env : Extern) (w : Widget) (build_x_pos : Bool) (offset : Int)
    (st : LineBuild) : LineBuild :=
  let ascii_start := (st.line.length : Int) + env.hexChars w.gui_bytes_view + 3
  let slop := Int.tdiv w.font_width_ 2
  let st1 : LineBuild :=
    if build_x_pos then { st with x_pos := st.x_pos ++ fill (-1) slop } else st
  let st2 := forTvbPos (hexBody env w build_x_pos offset slop) offset (maxTvbPos w offset) st1
  let line := st2.line ++ qstringFill (ascii_start - (st2.line.length : Int)) ' '
  { line := line,
    x_pos :=
      if build_x_pos then
        st2.x_pos ++ fill (-1) (fontMetricsWidth w line - (st2.x_pos.length : Int))
      else st2.x_pos }

/-- The four `addHexFormatRange` calls of `drawLine` (lines 345-352). -/
def drawHexFormats (env : Extern) (w : Widget) (offset : Int)
    (acc : List FormatRange × HighlightMode) : List FormatRange × HighlightMode :=
  let max_tvb_pos := maxTvbPos w offset
  let r1 := addHexFormatRange env w acc.1 w.proto_start_ w.proto_len_ offset max_tvb_pos
    .ModeProtocol
  let r2 := addHexFormatRange env w r1.2 w.field_start_ w.field_len_ offset max_tvb_pos
    .ModeField
  let offset_mode := if r2.1 then HighlightMode.ModeOffsetField else acc.2
  let r3 := addHexFormatRange env w r2.2 w.field_a_start_ w.field_a_len_ offset max_tvb_pos
    .ModeField
  let fmt :=
    if w.hovered_byte_offset_ ≥ offset ∧ w.hovered_byte_offset_ ≤ max_tvb_pos then
      (addHexFormatRange env w r3.2 w.hovered_byte_offset_ (w.hovered_byte_offset_ + 1)
        offset max_tvb_pos .ModeField).2
    else r3.2
  (fmt, offset_mode)

/-- The four `addAsciiFormatRange` calls of `drawLine` (lines 379-386). -/
def drawAsciiFormats (env : Extern) (w : Widget) (offset : Int)
    (acc : List FormatRange × HighlightMode) : List FormatRange × HighlightMode :=
  let max_tvb_pos := maxTvbPos w offset
  let r1 := addAsciiFormatRange env w acc.1 w.proto_start_ w.proto_len_ offset max_tvb_pos
    .ModeProtocol
  let r2 := addAsciiFormatRange env w r1.2 w.field_start_ w.field_len_ offset max_tvb_pos
    .ModeField
  let offset_mode := if r2.1 then HighlightMode.ModeOffsetField else acc.2
  let r3 := addAsciiFormatRange env w r2.2 w.field_a_start_ w.field_a_len_ offset max_tvb_pos
    .ModeField
  let fmt :=
    if w.hovered_byte_offset_ ≥ offset ∧ w.hovered_byte_offset_ ≤ max_tvb_pos then
      (addAsciiFormatRange env w r3.2 w.hovered_byte_offset_ (w.hovered_byte_offset_ + 1)
        offset max_tvb_pos .ModeField).2
    else r3.2
  (fmt, offset_mode)

/-- The line and the pixel table `drawLine` composes for the row starting at `offset`. -/
def drawText (env : Extern) (w : Widget) (offset : Int) : LineBuild :=
  let build_x_pos := w.x_pos_to_column_.isEmpty
  let st0 : LineBuild := { line := [], x_pos := w.x_pos_to_column_ }
  let st1 := drawOffset w build_x_pos offset st0
  let st2 := if w.show_hex_ then drawHexText env w build_x_pos offset st1 else st1
  if w.show_ascii_ then
    forTvbPos (asciiBody env w build_x_pos offset) offset (maxTvbPos w offset) st2
  else st2

/-- The format list `drawLine` composes for the row starting at `offset`. -/
def drawFormats (env : Extern) (w : Widget) (offset : Int) : List FormatRange :=
  let a0 : List FormatRange × HighlightMode := ([], .ModeOffsetNormal)
  let a1 := if w.show_hex_ then drawHexFormats env w offset a0 else a0
  let a2 := if w.show_ascii_ then drawAsciiFormats env w offset a1 else a1
  (addFormatRange a2.1 0 (offsetChars w true) a2.2).2

/-- The method `drawLine`: the widget afterwards (its pixel table may have grown) and
what was handed to the layout, `none` when the buffer is empty. -/
def drawLine (env : Extern) (w : Widget) (offset : Int) : Widget × Option DrawnLine :=
  if isEmpty w then (w, none)
  else
    let st := drawText env w offset
    ({ w with x_pos_to_column_ := st.x_pos },
      some { line := st.line, fmt_list := drawFormats env w offset })

/-- One `drawLine` call of `paintEvent`: its arguments and what it drew. -/
structure PaintedRow where
  offset : Int
  row_y : Int
  drawn : Option DrawnLine
deriving DecidableEq, Repr

/-- The `while` loop of `paintEvent` (lines 221-225), with a bound on the number of
iterations: `none` when the bound is reached before the loop condition fails. -/
def paintLoop (env : Extern) : Nat → Widget → Int → Int → List PaintedRow →
    Option (Widget × List PaintedRow)
  | 0, w, offset, row_y, rows =>
    if row_y + w.line_height_ < w.height ∧ offset < count w then none else some (w, rows)
  | fuel + 1, w, offset, row_y, rows =>
    if row_y + w.line_height_ < w.height ∧ offset < count w then
      let r := drawLine env w offset
      paintLoop env fuel r.1 (offset + w.row_width_) (row_y + w.line_height_)
        (rows ++ [{ offset := offset, row_y := row_y, drawn := r.2 }])
    else some (w, rows)

/-- The method `paintEvent`: the widget afterwards and the rows drawn, in order. -/
def paintEvent (env : Extern) (fuel : Nat) (w : Widget) : Option (Widget × List PaintedRow) :=
  let offset := w.verticalScrollBar.value * w.row_width_
  if w.data_.isEmpty then some (w, [])
  else paintLoop env fuel { w with x_pos_to_column_ := [] } offset 0 []

/-- The method `byteOffsetAtPixel`. -/
def byteOffsetAtPixel (w : Widget) (pos : QPoint) : Int :=
  let byte := (w.verticalScrollBar.value + Int.tdiv pos.y w.line_height_) * w.row_width_
  let x := w.horizontalScrollBar.value * w.font_width_ + pos.x
  let col := vectorValue w.x_pos_to_column_ x (-1)
  if col < 0 then -1
  else
    let byte2 := byte + col
    if byte2 > count w then -1 else byte2

/-- The method `offsetPixels`. -/
def offsetPixels (w : Widget) : Int :=
  if w.show_offset_ then fontMetricsWidth w (qstringFill (offsetChars w true) '0') else 0

/-- The method `hexPixels`. -/
def hexPixels (env : Extern) (w : Widget) : Int :=
  if w.show_hex_ then
    fontMetricsWidth w (qstringFill (env.hexChars w.gui_bytes_view + 2) '0')
  else 0

/-- The method `asciiPixels`. -/
def asciiPixels (env : Extern) (w : Widget) : Int :=
  if w.show_ascii_ then
    let ascii_chars := w.row_width_ + Int.tdiv (w.row_width_ - 1) env.separatorInterval
    fontMetricsWidth w (qstringFill (ascii_chars + 3) '0')
  else 0

/-- The method `totalPixels`. -/
def totalPixels (env : Extern) (w : Widget) : Int :=
  offsetPixels w + hexPixels env w + asciiPixels env w

/-- The method `updateScrollbars`. -/
def updateScrollbars (env : Extern) (w : Widget) : Widget :=
  let length := count w
  if length > 0 then
    let all_lines_height := Int.tdiv length w.row_width_
      + (if Int.tmod length w.row_width_ ≠ 0 then 1 else 0)
      - Int.tdiv w.viewport_height w.line_height_
    { w with
      verticalScrollBar := w.verticalScrollBar.setRange 0 (max 0 all_lines_height)
      horizontalScrollBar := w.horizontalScrollBar.setRange 0
        (max 0 (Int.tdiv (totalPixels env w - w.viewport_width) w.font_width_)) }
  else w

/-- The method `setHexDisplayFormat`; `none` is a null action, otherwise the action
carries the display mode. -/
def setHexDisplayFormat (env : Extern) (w : Widget) (action : Option bytes_view_type) :
    Widget :=
  match action with
  | none => w
  | some m =>
    let w1 := { w with gui_bytes_view := m }
    let w2 := { w1 with row_width_ := if w1.gui_bytes_view = .BYTES_HEX then 16 else 8 }
    updateScrollbars env w2

/-- The collaborators as the application provides them: separator interval 8, 49 hex
characters per row in hex mode and 72 in bit mode, identity in place of the EBCDIC table. -/
def demoEnv : Extern :=
  { separatorInterval := 8
    hexChars := fun v => match v with
      | .BYTES_HEX => 49
      | .BYTES_BITS => 72
    EBCDIC_to_ASCII1 := fun b => b }

/-- A freshly constructed widget over `data`, as the constructor leaves it, with the
given display mode, font metrics and widget height. -/
def demoWidget (data : List Nat) (view : bytes_view_type) (fw lh h : Int) : Widget :=
  { data_ := data
    encoding_ := .PACKET_CHAR_ENC_CHAR_ASCII
    hovered_byte_offset_ := -1
    hovered_byte_lock_ := false
    proto_start_ := 0
    proto_len_ := 0
    field_start_ := 0
    field_len_ := 0
    field_a_start_ := 0
    field_a_len_ := 0
    show_offset_ := true
    show_hex_ := true
    show_ascii_ := true
    row_width_ := if view = .BYTES_HEX then 16 else 8
    font_width_ := fw
    line_height_ := lh
    x_pos_to_column_ := []
    gui_bytes_view := view
    verticalScrollBar := { minimum := 0, maximum := 0, value := 0 }
    horizontalScrollBar := { minimum := 0, maximum := 0, value := 0 }
    height := h
    viewport_height := h
    viewport_width := 640 }

/-- The bytes `0x41, 0x42, ...`: `n` of them. -/
def demoBytes (n : Nat) : List Nat := (List.range n).map (fun i => 65 + i)

/-- The method `reset`. -/
def reset (w : Widget) : Widget := { w with data_ := [] }

/-- A widget whose 100-byte buffer was laid out in a viewport two lines high and then
cleared by `reset`. -/
def staleWidget : Widget :=
  reset (updateScrollbars demoEnv (demoWidget (demoBytes 100) .BYTES_HEX 8 16 32))

/-- The characters of `k` consecutive cells, the cell of position `p` being `cell p`. -/
def rowCells (cell : Int → List Char) (offset : Int) : Nat → List Char
  | 0 => []
  | k + 1 => rowCells cell offset k ++ cell (offset + (k : Int))

/-- What one iteration of the hex loop appends to the line. -/
def hexCell (env : Extern) (w : Widget) (offset tvb_pos : Int) : List Char :=
  [' '] ++ (if isSeparator env offset tvb_pos then [' '] else [])
    ++ byteChars w.gui_bytes_view (byteAt w tvb_pos)

/-- What one iteration of the ASCII loop appends to the line. -/
def asciiCell (env : Extern) (w : Widget) (offset tvb_pos : Int) : List Char :=
  (if isSeparator env offset tvb_pos then [' '] else []) ++ [asciiChar env w (byteAt w tvb_pos)]

/-- The offset text at the head of a line: `QString(" %1 ").arg(offset, offsetChars(false), 16, '0')`. -/
def offsetText (w : Widget) (offset : Int) : List Char :=
  [' '] ++ argHex offset (offsetChars w false) '0' ++ [' ']

/-- Number of bytes of the row starting at `offset`: the iterations of the two loops. -/
def rowBytes (w : Widget) (offset : Int) : Nat := (maxTvbPos w offset - offset + 1).toNat

/-- The line of a row, column by column, without the pixel table. -/
def rowLine (env : Extern) (w : Widget) (offset : Int) : List Char :=
  let l0 := if w.show_offset_ then offsetText w offset else []
  let l1 := l0 ++ rowCells (hexCell env w offset) offset (rowBytes w offset)
  let l2 :=
    if w.show_hex_ then
      l1 ++ qstringFill ((l0.length : Int) + env.hexChars w.gui_bytes_view + 3 - (l1.length : Int)) ' '
    else l0
  if w.show_ascii_ then l2 ++ rowCells (asciiCell env w offset) offset (rowBytes w offset) else l2

/-- The record of one `drawLine` call of `paintEvent` on a non-empty buffer. -/
def paintedRow (env : Extern) (w : Widget) (offset row_y : Int) : PaintedRow :=
  { offset := offset
    row_y := row_y
    drawn := some { line := rowLine env w offset, fmt_list := drawFormats env w offset } }

/-- The widget with its pixel table replaced. -/
def setTable (w : Widget) (t : List Int) : Widget := { w with x_pos_to_column_ := t }

theorem addFormatRange_of_lt (fmt : List FormatRange) (start length : Int) (mode : HighlightMode)
    (h : length < 1) : addFormatRange fmt start length mode = (false, fmt) := by
  simp [addFormatRange, h]

theorem addFormatRange_of_ge (fmt : List FormatRange) (start length : Int) (mode : HighlightMode)
    (h : 1 ≤ length) (hm : mode ≠ .ModeNormal) :
    addFormatRange fmt start length mode
      = (true, fmt ++ [{ start := start, length := length, mode := mode }]) := by
  have h2 : ¬ length < 1 := by omega
  simp [addFormatRange, h2, hm]

theorem offsetChars_true_eq (w : Widget) :
    offsetChars w true = offsetChars w false + 2 := by
  unfold offsetChars
  by_cases h : (!isEmpty w && decide (count w > 0xffff)) = true <;> simp [h]

theorem offsetChars_false_cases (w : Widget) :
    offsetChars w false = 4 ∨ offsetChars w false = 8 := by
  unfold offsetChars
  by_cases h : (!isEmpty w && decide (count w > 0xffff)) = true <;> simp [h]

theorem addHexFormatRange_of_lt (env : Extern) (w : Widget) (fmt : List FormatRange)
    (ms ml off mx : Int) (mode : HighlightMode) (h : ml < 1) :
    addHexFormatRange env w fmt ms ml off mx mode = (false, fmt) := by
  simp [addHexFormatRange, h]

theorem addAsciiFormatRange_of_lt (env : Extern) (w : Widget) (fmt : List FormatRange)
    (ms ml off mx : Int) (mode : HighlightMode) (h : ml < 1) :
    addAsciiFormatRange env w fmt ms ml off mx mode = (false, fmt) := by
  simp [addAsciiFormatRange, h]

theorem addHexFormatRange_of_neg (env : Extern) (w : Widget) (fmt : List FormatRange)
    (ms ml off mx : Int) (mode : HighlightMode) (h : ms < 0) :
    addHexFormatRange env w fmt ms ml off mx mode = (false, fmt) := by
  simp [addHexFormatRange, h]

theorem addAsciiFormatRange_of_neg (env : Extern) (w : Widget) (fmt : List FormatRange)
    (ms ml off mx : Int) (mode : HighlightMode) (h : ms < 0) :
    addAsciiFormatRange env w fmt ms ml off mx mode = (false, fmt) := by
  simp [addAsciiFormatRange, h]

theorem one_le_offsetChars (w : Widget) : 1 ≤ offsetChars w true := by
  have := offsetChars_true_eq w
  rcases offsetChars_false_cases w with h | h <;> omega

theorem drawLine_snd (env : Extern) (w : Widget) (offset : Int) (hne : w.data_ ≠ []) :
    (drawLine env w offset).2
      = some { line := (drawText env w offset).line, fmt_list := drawFormats env w offset } := by
  have h : isEmpty w = false := by
    cases hd : w.data_ with
    | nil => exact absurd hd hne
    | cons a l => simp [isEmpty, hd]
  simp [drawLine, h]

theorem drawLine_fst (env : Extern) (w : Widget) (offset : Int) (hne : w.data_ ≠ []) :
    (drawLine env w offset).1 = { w with x_pos_to_column_ := (drawText env w offset).x_pos } := by
  have h : isEmpty w = false := by
    cases hd : w.data_ with
    | nil => exact absurd hd hne
    | cons a l => simp [isEmpty, hd]
  simp [drawLine, h]

/-- With no span of positive length and no hovered byte, the format list of a row is the
offset range alone. -/
theorem drawFormats_no_span (env : Extern) (w : Widget) (offset : Int)
    (hp : w.proto_len_ < 1) (hf : w.field_len_ < 1) (ha : w.field_a_len_ < 1)
    (hh : w.hovered_byte_offset_ < 0) :
    drawFormats env w offset
      = [{ start := 0, length := offsetChars w true, mode := .ModeOffsetNormal }] := by
  have e1 : ∀ (acc : List FormatRange × HighlightMode),
      drawHexFormats env w offset acc = acc := by
    intro acc
    simp only [drawHexFormats, addHexFormatRange_of_lt env w _ _ _ _ _ _ hp,
      addHexFormatRange_of_lt env w _ _ _ _ _ _ hf, addHexFormatRange_of_lt env w _ _ _ _ _ _ ha,
      addHexFormatRange_of_neg env w _ _ _ _ _ _ hh, ite_self, Bool.false_eq_true, if_false]
  have e2 : ∀ (acc : List FormatRange × HighlightMode),
      drawAsciiFormats env w offset acc = acc := by
    intro acc
    simp only [drawAsciiFormats, addAsciiFormatRange_of_lt env w _ _ _ _ _ _ hp,
      addAsciiFormatRange_of_lt env w _ _ _ _ _ _ hf,
      addAsciiFormatRange_of_lt env w _ _ _ _ _ _ ha,
      addAsciiFormatRange_of_neg env w _ _ _ _ _ _ hh, ite_self, Bool.false_eq_true, if_false]
  simp only [drawFormats, e1, e2, ite_self]
  rw [addFormatRange_of_ge _ _ _ _ (one_le_offsetChars w) (by decide)]
  simp

/-! ## Claims C3 and C4 -/

/-- C4: a span of length `< 1` never produces a format range: for every start, row and
highlight mode `addFormatRange`, `addHexFormatRange` and `addAsciiFormatRange` return false
and leave the format list unchanged; and when `proto_len_`, `field_len_` and `field_a_len_`
are all `< 1` and no byte is hovered, the format list `drawLine` hands to the layout for a
non-empty buffer is the offset range alone, in `ModeOffsetNormal`. -/
theorem C4_short_span_no_range (env : Extern) (w : Widget) (fmt_list : List FormatRange)
    (start length tvb_offset max_tvb_pos : Int) (mode : HighlightMode)
    (hlen : length < 1) :
    addFormatRange fmt_list start length mode = (false, fmt_list)
    ∧ addHexFormatRange env w fmt_list start length tvb_offset max_tvb_pos mode
        = (false, fmt_list)
    ∧ addAsciiFormatRange env w fmt_list start length tvb_offset max_tvb_pos mode
        = (false, fmt_list)
    ∧ (∀ offset : Int, w.data_ ≠ [] → w.proto_len_ < 1 → w.field_len_ < 1 →
        w.field_a_len_ < 1 → w.hovered_byte_offset_ < 0 →
        ∃ line, (drawLine env w offset).2 = some {
          line := line
          fmt_list := [{ start := 0, length := offsetChars w true, mode := .ModeOffsetNormal }] })
    := by
  refine ⟨addFormatRange_of_lt _ _ _ _ hlen, addHexFormatRange_of_lt _ _ _ _ _ _ _ _ hlen,
    addAsciiFormatRange_of_lt _ _ _ _ _ _ _ _ hlen, ?_⟩
  intro offset hne hp hf ha hh
  exact ⟨_, by rw [drawLine_snd env w offset hne, drawFormats_no_span env w offset hp hf ha hh]⟩

/-- C4 on the 32-byte buffer in hex mode: the span `(2, 0)` gives no range on the row
`[0, 15]`, and with the field `(2, 0)` selected the first row carries the offset range only. -/
theorem C4_short_span_no_range_witness :
    addHexFormatRange demoEnv { demoWidget (demoBytes 32) .BYTES_HEX 8 16 200 with
        field_start_ := 2, field_len_ := 0 } [] 2 0 0 15 .ModeField = (false, [])
    ∧ ∃ line, (drawLine demoEnv { demoWidget (demoBytes 32) .BYTES_HEX 8 16 200 with
        field_start_ := 2, field_len_ := 0 } 0).2 = some {
          line := line
          fmt_list := [{ start := 0, length := 6, mode := .ModeOffsetNormal }] } := by
  have h := C4_short_span_no_range demoEnv
    { demoWidget (demoBytes 32) .BYTES_HEX 8 16 200 with field_start_ := 2, field_len_ := 0 }
    [] 2 0 0 15 .ModeField (by decide)
  exact ⟨h.2.1, h.2.2.2 0 (by simp [demoWidget, demoBytes]) (by decide) (by decide)
    (by decide) (by decide)⟩

/-! ## Claims C9 and C10: the width of the highlighted span -/

/-- C9 (bit mode, bytes `0x41 ..`, row `[0, 7]`, span `(0, 1)`): the line shows byte 0 as
the eight characters `01000001` at indices 7 to 14, and `addHexFormatRange` appends the range
starting at 7 of length 2, which covers the first two of them only. -/
theorem C9_bit_mode_range_covers_two_chars :
    (drawText demoEnv (demoWidget (demoBytes 8) .BYTES_BITS 2 16 200) 0).line.take 15
      = [' ', '0', '0', '0', '0', ' ', ' ', '0', '1', '0', '0', '0', '0', '0', '1']
    ∧ addHexFormatRange demoEnv (demoWidget (demoBytes 8) .BYTES_BITS 2 16 200) [] 0 1 0 7
        .ModeField = (true, [{ start := 7, length := 2, mode := .ModeField }]) := by
  constructor <;> decide

theorem isEmpty_eq_false (w : Widget) (hne : w.data_ ≠ []) : isEmpty w = false := by
  cases hd : w.data_ with
  | nil => exact absurd hd hne
  | cons a l => simp [isEmpty, hd]

/-- The bounds `setRange(0, qMax(0, v))` leaves on a scrollbar. -/
theorem setRange_bounds (sb : ScrollBar) (v : Int) :
    (sb.setRange 0 (max 0 v)).minimum = 0 ∧ (sb.setRange 0 (max 0 v)).maximum = max 0 v := by
  simp [ScrollBar.setRange]

/-- C7, as stated, fails for an empty buffer: on the widget whose 100-byte buffer was laid
out (vertical range `[0, 5]`) and then reset, switching to bit mode leaves the vertical
maximum at 5, not at `max(0, 0 - floor(32 / 16)) = 0`. -/
theorem C7_empty_buffer_keeps_range :
    count staleWidget = 0
    ∧ (setHexDisplayFormat demoEnv staleWidget (some .BYTES_BITS)).row_width_ = 8
    ∧ (setHexDisplayFormat demoEnv staleWidget (some .BYTES_BITS)).verticalScrollBar.maximum = 5
    ∧ ¬ ((setHexDisplayFormat demoEnv staleWidget (some .BYTES_BITS)).verticalScrollBar.maximum
          = max 0 (0 - staleWidget.viewport_height / staleWidget.line_height_)) := by
  refine ⟨?_, ?_, ?_, ?_⟩ <;> decide

/-- C7, amended: for a non-null action carrying mode `m`, `setHexDisplayFormat` sets the
global preference to `m` and `row_width_` to 16 for `BYTES_HEX` and 8 for `BYTES_BITS`; when
the buffer is non-empty (`n > 0` bytes, viewport height `h >= 0`, line height `lh > 0`) the
vertical scrollbar range becomes `[0, max(0, rows - floor(h / lh))]` with
`rows = ceil(n / row_width_)`; when the buffer is empty both scrollbars are left as they
were. -/
theorem C7_display_mode_sets_width_and_range (env : Extern) (w : Widget) (m : bytes_view_type)
    (hh : 0 ≤ w.viewport_height) (hl : 0 < w.line_height_) :
    (setHexDisplayFormat env w (some m)).gui_bytes_view = m
    ∧ (setHexDisplayFormat env w (some m)).row_width_
        = (if m = .BYTES_HEX then 16 else 8)
    ∧ (0 < count w →
        (setHexDisplayFormat env w (some m)).verticalScrollBar.minimum = 0
        ∧ (setHexDisplayFormat env w (some m)).verticalScrollBar.maximum
            = max 0 ((count w + (if m = .BYTES_HEX then 16 else 8) - 1)
                        / (if m = .BYTES_HEX then 16 else 8)
                      - w.viewport_height / w.line_height_))
    ∧ (count w = 0 →
        (setHexDisplayFormat env w (some m)).verticalScrollBar = w.verticalScrollBar
        ∧ (setHexDisplayFormat env w (some m)).horizontalScrollBar = w.horizontalScrollBar) := by
  have hvis : Int.tdiv w.viewport_height w.line_height_ = w.viewport_height / w.line_height_ :=
    Int.tdiv_eq_ediv hh hl.le
  have hc0 : 0 ≤ count w := by simp [count]
  by_cases hpos : 0 < count w
  · have hgt : count w > 0 := hpos
    cases m with
    | BYTES_HEX =>
      have hd : Int.tdiv (count w) 16 = count w / 16 := Int.tdiv_eq_ediv hc0 (by decide)
      have hm : Int.tmod (count w) 16 = count w % 16 := Int.tmod_eq_emod hc0 (by decide)
      simp only [setHexDisplayFormat, updateScrollbars, count] at *
      simp only [hgt, if_true, hd, hm, hvis, setRange_bounds, reduceCtorEq, if_false]
      refine ⟨trivial, trivial, fun _ => ⟨trivial, ?_⟩, fun h0 => by omega⟩
      congr 1
      split <;> omega
    | BYTES_BITS =>
      have hd : Int.tdiv (count w) 8 = count w / 8 := Int.tdiv_eq_ediv hc0 (by decide)
      have hm : Int.tmod (count w) 8 = count w % 8 := Int.tmod_eq_emod hc0 (by decide)
      simp only [setHexDisplayFormat, updateScrollbars, count] at *
      simp only [hgt, if_true, hd, hm, hvis, setRange_bounds, reduceCtorEq, if_false]
      refine ⟨trivial, trivial, fun _ => ⟨trivial, ?_⟩, fun h0 => by omega⟩
      congr 1
      split <;> omega
  · have hz : ¬ (count w > 0) := hpos
    cases m <;>
    · simp only [setHexDisplayFormat, updateScrollbars, count] at *
      simp [hz]

/-- C7 amended, on a 100-byte buffer in a viewport of two lines: switching to bit mode gives
row width 8 and the vertical range `[0, 11]` (13 rows, 2 visible). -/
theorem C7_display_mode_sets_width_and_range_witness :
    (setHexDisplayFormat demoEnv (demoWidget (demoBytes 100) .BYTES_HEX 8 16 32)
        (some .BYTES_BITS)).row_width_ = 8
    ∧ (setHexDisplayFormat demoEnv (demoWidget (demoBytes 100) .BYTES_HEX 8 16 32)
        (some .BYTES_BITS)).verticalScrollBar.maximum = 11 := by
  have h := C7_display_mode_sets_width_and_range demoEnv
    (demoWidget (demoBytes 100) .BYTES_HEX 8 16 32) .BYTES_BITS (by decide) (by decide)
  exact ⟨h.2.1, (h.2.2.1 (by decide)).2.trans (by decide)⟩

/-! ## The line `drawLine` composes -/

theorem hexBody_line (env : Extern) (w : Widget) (b : Bool) (offset slop : Int)
    (st : LineBuild) (p : Int) :
    (hexBody env w b offset slop st p).line = st.line ++ hexCell env w offset p := by
  unfold hexBody hexCell
  cases isSeparator env offset p <;> simp

theorem asciiBody_line (env : Extern) (w : Widget) (b : Bool) (offset : Int)
    (st : LineBuild) (p : Int) :
    (asciiBody env w b offset st p).line = st.line ++ asciiCell env w offset p := by
  unfold asciiBody asciiCell
  cases isSeparator env offset p <;> simp

theorem foldl_range_succ {σ : Type} (f : σ → Nat → σ) (s : σ) (k : Nat) :
    (List.range (k + 1)).foldl f s = f ((List.range k).foldl f s) k := by
  rw [List.range_succ, List.foldl_append]
  rfl

/-- The line after `k` iterations of a loop whose body appends `cell p`. -/
theorem fold_line (body : LineBuild → Int → LineBuild) (cell : Int → List Char)
    (hbody : ∀ st p, (body st p).line = st.line ++ cell p) (offset : Int) (st : LineBuild)
    (k : Nat) :
    ((List.range k).foldl (fun (acc : LineBuild) (i : Nat) => body acc (offset + (i : Int))) st).line
      = st.line ++ rowCells cell offset k := by
  induction k with
  | zero => simp [rowCells]
  | succ k ih => rw [foldl_range_succ, hbody, ih, rowCells, List.append_assoc]

theorem drawOffset_line (w : Widget) (b : Bool) (offset : Int) (st : LineBuild) :
    (drawOffset w b offset st).line = if w.show_offset_ then offsetText w offset else st.line := by
  unfold drawOffset offsetText
  split <;> rfl

theorem drawHexText_line (env : Extern) (w : Widget) (b : Bool) (offset : Int) (st : LineBuild) :
    (drawHexText env w b offset st).line
      = st.line ++ rowCells (hexCell env w offset) offset (rowBytes w offset)
        ++ qstringFill ((st.line.length : Int) + env.hexChars w.gui_bytes_view + 3
            - ((st.line ++ rowCells (hexCell env w offset) offset (rowBytes w offset)).length : Int))
          ' ' := by
  have h1 : ∀ st1 : LineBuild, st1.line = st.line →
      (forTvbPos (hexBody env w b offset (Int.tdiv w.font_width_ 2)) offset (maxTvbPos w offset)
        st1).line = st.line ++ rowCells (hexCell env w offset) offset (rowBytes w offset) := by
    intro st1 h
    unfold forTvbPos
    rw [fold_line _ (hexCell env w offset) (hexBody_line env w b offset _), h]
    rfl
  unfold drawHexText
  simp only
  rw [h1 _ (by split <;> rfl)]

/-- The line `drawLine` composes is `rowLine`, whatever the pixel table. -/
theorem drawText_line (env : Extern) (w : Widget) (offset : Int) :
    (drawText env w offset).line = rowLine env w offset := by
  unfold drawText rowLine
  simp only
  by_cases hh : w.show_hex_ = true <;> by_cases ha : w.show_ascii_ = true <;>
    simp only [hh, ha, if_true, Bool.false_eq_true, if_false, forTvbPos,
      fold_line _ (asciiCell env w offset) (asciiBody_line env w _ offset),
      drawHexText_line, drawOffset_line] <;> rfl

theorem toDigits_length_le (n e : Nat) (he : 0 < e) (h : n < 16 ^ e) :
    (Nat.toDigits 16 n).length ≤ e :=
  Nat.toDigitsCore_length 16 (by decide) (n + 1) n e h he

/-- The offset text is exactly `offsetChars()` characters when the offset lies in the buffer. -/
theorem offsetText_length (w : Widget) (offset : Int) (h0 : 0 ≤ offset)
    (hlt : offset < count w) (hint : count w < 2 ^ 31) :
    ((offsetText w offset).length : Int) = offsetChars w true
    ∧ (Nat.toDigits 16 offset.toNat).length ≤ (offsetChars w false).toNat := by
  have hd : (Nat.toDigits 16 offset.toNat).length ≤ (offsetChars w false).toNat := by
    unfold offsetChars
    by_cases hbig : (!isEmpty w && decide (count w > 0xffff)) = true
    · simp only [hbig, if_true, Bool.false_eq_true, if_false]
      exact toDigits_length_le _ 8 (by decide) (by norm_num; omega)
    · simp only [hbig, if_false, Bool.false_eq_true]
      have hne : isEmpty w = false := by
        cases hd : w.data_ with
        | nil => simp [count, hd] at hlt; omega
        | cons a l => simp [isEmpty, hd]
      have hsmall : ¬ (count w > 0xffff) := by
        intro hc
        apply hbig
        simp [hne, hc]
      exact toDigits_length_le _ 4 (by decide) (by norm_num; omega)
  refine ⟨?_, hd⟩
  rw [offsetChars_true_eq]
  unfold offsetText argHex qstringFill
  simp only [List.length_append, List.length_replicate, List.length_singleton]
  have := offsetChars_false_cases w
  omega

/-- The head of a row is the offset text. -/
theorem rowLine_take (env : Extern) (w : Widget) (offset : Int)
    (ho : w.show_offset_ = true) :
    (rowLine env w offset).take (offsetText w offset).length = offsetText w offset := by
  have : ∃ rest, rowLine env w offset = offsetText w offset ++ rest := by
    unfold rowLine
    simp only [ho, if_true]
    by_cases hh : w.show_hex_ = true <;> by_cases ha : w.show_ascii_ = true <;>
      simp only [hh, ha, if_true, Bool.false_eq_true, if_false, List.append_assoc] <;>
      first
        | exact ⟨_, rfl⟩
        | exact ⟨[], (List.append_nil _).symm⟩
  obtain ⟨rest, hr⟩ := this
  rw [hr, List.take_left]

/-! ## Claim C2: highlight ranges in hex mode -/

theorem rowBytes_cast (w : Widget) (offset : Int) (hrw : 0 < w.row_width_)
    (hlt : offset < count w) :
    (rowBytes w offset : Int) = min w.row_width_ (count w - offset) := by
  unfold rowBytes maxTvbPos
  omega

theorem hexBody_x_pos_false (env : Extern) (w : Widget) (offset slop : Int)
    (st : LineBuild) (p : Int) :
    ∃ e, (hexBody env w false offset slop st p).x_pos = st.x_pos ++ e := by
  unfold hexBody
  cases isSeparator env offset p
  · exact ⟨[], by simp⟩
  · exact ⟨_, by simp; rfl⟩

theorem asciiBody_x_pos_false (env : Extern) (w : Widget) (offset : Int)
    (st : LineBuild) (p : Int) :
    ∃ e, (asciiBody env w false offset st p).x_pos = st.x_pos ++ e := by
  unfold asciiBody
  exact ⟨[], by simp⟩

/-- A loop whose body only appends to the pixel table only appends to it. -/
theorem fold_x_pos_append (body : LineBuild → Int → LineBuild)
    (hbody : ∀ st p, ∃ e, (body st p).x_pos = st.x_pos ++ e) (offset : Int) (st : LineBuild)
    (k : Nat) :
    ∃ e, ((List.range k).foldl (fun (acc : LineBuild) (i : Nat) => body acc (offset + (i : Int)))
      st).x_pos = st.x_pos ++ e := by
  induction k with
  | zero => exact ⟨[], by simp⟩
  | succ k ih =>
    obtain ⟨e1, h1⟩ := ih
    obtain ⟨e2, h2⟩ := hbody ((List.range k).foldl
      (fun (acc : LineBuild) (i : Nat) => body acc (offset + (i : Int))) st) (offset + (k : Int))
    refine ⟨e1 ++ e2, ?_⟩
    rw [foldl_range_succ, h2, h1, List.append_assoc]

/-- `drawLine` never shortens or rewrites the pixel table it finds: it appends to it. -/
theorem drawText_x_pos_append (env : Extern) (w : Widget) (offset : Int) :
    ∃ e, (drawText env w offset).x_pos = w.x_pos_to_column_ ++ e := by
  cases hx : w.x_pos_to_column_ with
  | nil => exact ⟨_, (List.nil_append _).symm⟩
  | cons a l =>
    have hb : w.x_pos_to_column_.isEmpty = false := by simp [hx]
    have hoff : (drawOffset w false offset { line := [], x_pos := w.x_pos_to_column_ }).x_pos
        = w.x_pos_to_column_ := by
      unfold drawOffset
      split <;> simp
    have hhex : ∀ st : LineBuild, ∃ e, (drawHexText env w false offset st).x_pos = st.x_pos ++ e := by
      intro st
      unfold drawHexText forTvbPos
      simp only [Bool.false_eq_true, if_false]
      exact fold_x_pos_append _ (hexBody_x_pos_false env w offset _) offset st _
    have hasc : ∀ st : LineBuild, ∃ e,
        (forTvbPos (asciiBody env w false offset) offset (maxTvbPos w offset) st).x_pos
          = st.x_pos ++ e := by
      intro st
      unfold forTvbPos
      exact fold_x_pos_append _ (asciiBody_x_pos_false env w offset) offset st _
    rw [← hx]
    unfold drawText
    simp only [hb]
    by_cases hh : w.show_hex_ = true <;> by_cases ha : w.show_ascii_ = true <;>
      simp only [hh, ha, if_true, Bool.false_eq_true, if_false]
    · obtain ⟨e1, h1⟩ := hhex (drawOffset w false offset { line := [], x_pos := w.x_pos_to_column_ })
      obtain ⟨e2, h2⟩ := hasc (drawHexText env w false offset
        (drawOffset w false offset { line := [], x_pos := w.x_pos_to_column_ }))
      exact ⟨e1 ++ e2, by rw [h2, h1, hoff, List.append_assoc]⟩
    · obtain ⟨e1, h1⟩ := hhex (drawOffset w false offset { line := [], x_pos := w.x_pos_to_column_ })
      exact ⟨e1, by rw [h1, hoff]⟩
    · obtain ⟨e2, h2⟩ := hasc (drawOffset w false offset { line := [], x_pos := w.x_pos_to_column_ })
      exact ⟨e2, by rw [h2, hoff]⟩
    · exact ⟨[], by rw [hoff, List.append_nil]⟩

theorem range_succ_map_front {α : Type} (f : Nat → α) (k : Nat) :
    (List.range (k + 1)).map f = f 0 :: (List.range k).map (fun j => f (j + 1)) := by
  rw [List.range_succ_eq_map, List.map_cons, List.map_map]
  rfl

theorem setTable_x_pos (w : Widget) (t : List Int) : (setTable w t).x_pos_to_column_ = t := rfl

theorem offsetChars_setTable (w : Widget) (t : List Int) (b : Bool) :
    offsetChars (setTable w t) b = offsetChars w b := rfl

theorem offsetText_setTable (w : Widget) (t : List Int) (offset : Int) :
    offsetText (setTable w t) offset = offsetText w offset := rfl

theorem rowBytes_setTable (w : Widget) (t : List Int) (offset : Int) :
    rowBytes (setTable w t) offset = rowBytes w offset := rfl

theorem hexCell_setTable (env : Extern) (w : Widget) (t : List Int) (offset : Int) :
    hexCell env (setTable w t) offset = hexCell env w offset := rfl

theorem asciiCell_setTable (env : Extern) (w : Widget) (t : List Int) (offset : Int) :
    asciiCell env (setTable w t) offset = asciiCell env w offset := rfl

theorem rowLine_setTable (env : Extern) (w : Widget) (t : List Int) (offset : Int) :
    rowLine env (setTable w t) offset = rowLine env w offset := by
  unfold rowLine
  rw [offsetText_setTable, rowBytes_setTable, hexCell_setTable, asciiCell_setTable]
  rfl

theorem addHexFormatRange_setTable (env : Extern) (w : Widget) (t : List Int) :
    addHexFormatRange env (setTable w t) = addHexFormatRange env w := rfl

theorem addAsciiFormatRange_setTable (env : Extern) (w : Widget) (t : List Int) :
    addAsciiFormatRange env (setTable w t) = addAsciiFormatRange env w := rfl

theorem maxTvbPos_setTable (w : Widget) (t : List Int) (offset : Int) :
    maxTvbPos (setTable w t) offset = maxTvbPos w offset := rfl

theorem drawFormats_setTable (env : Extern) (w : Widget) (t : List Int) (offset : Int) :
    drawFormats env (setTable w t) offset = drawFormats env w offset := by
  unfold drawFormats drawHexFormats drawAsciiFormats
  rw [addHexFormatRange_setTable, addAsciiFormatRange_setTable, maxTvbPos_setTable,
    offsetChars_setTable]
  rfl

theorem setTable_setTable (w : Widget) (t t2 : List Int) :
    setTable (setTable w t) t2 = setTable w t2 := rfl

theorem paintLoop_stop (env : Extern) (fuel : Nat) (w : Widget) (offset row_y : Int)
    (acc : List PaintedRow)
    (hc : ¬ (row_y + w.line_height_ < w.height ∧ offset < count w)) :
    paintLoop env fuel w offset row_y acc = some (w, acc) := by
  cases fuel <;> simp only [paintLoop, hc, if_false]

theorem paintLoop_go (env : Extern) (f : Nat) (w : Widget) (offset row_y : Int)
    (acc : List PaintedRow)
    (hc : row_y + w.line_height_ < w.height ∧ offset < count w) :
    paintLoop env (f + 1) w offset row_y acc
      = paintLoop env f (drawLine env w offset).1 (offset + w.row_width_)
          (row_y + w.line_height_)
          (acc ++ [{ offset := offset, row_y := row_y, drawn := (drawLine env w offset).2 }]) := by
  simp only [paintLoop, hc, and_self, if_true]

/-- The `while` loop of `paintEvent` on a non-empty buffer: when the loop condition holds for
the first `k` rows and fails for the next, and the bound allows `k` iterations, the loop
returns after drawing these `k` rows; the widget changes in its pixel table only, which is
appended to, and after a first row holds what that row built. -/
theorem paintLoop_spec (env : Extern) (w : Widget) (hne : w.data_ ≠ []) :
    ∀ (k fuel : Nat) (t : List Int) (offset row_y : Int) (acc : List PaintedRow),
      (∀ j : Nat, j < k → row_y + (j : Int) * w.line_height_ + w.line_height_ < w.height
          ∧ offset + (j : Int) * w.row_width_ < count w) →
      ¬ (row_y + (k : Int) * w.line_height_ + w.line_height_ < w.height
          ∧ offset + (k : Int) * w.row_width_ < count w) →
      k ≤ fuel →
      ∃ t', paintLoop env fuel (setTable w t) offset row_y acc
          = some (setTable w t',
              acc ++ (List.range k).map (fun (j : Nat) =>
                paintedRow env w (offset + (j : Int) * w.row_width_)
                  (row_y + (j : Int) * w.line_height_)))
        ∧ (∃ e, t' = t ++ e)
        ∧ (0 < k → ∃ e, t' = (drawText env (setTable w t) offset).x_pos ++ e) := by
  intro k
  induction k with
  | zero =>
    intro fuel t offset row_y acc _ hstop _
    have hstop2 : ¬ (row_y + (setTable w t).line_height_ < (setTable w t).height
        ∧ offset < count (setTable w t)) := by
      simpa using hstop
    refine ⟨t, ?_, ⟨[], by simp⟩, fun h => absurd h (by decide)⟩
    rw [paintLoop_stop env fuel _ offset row_y acc hstop2]
    simp
  | succ k ih =>
    intro fuel t offset row_y acc hgo hstop hfuel
    obtain ⟨f, rfl⟩ : ∃ f, fuel = f + 1 := ⟨fuel - 1, by omega⟩
    have h0 := hgo 0 (by omega)
    have hc : row_y + (setTable w t).line_height_ < (setTable w t).height
        ∧ offset < count (setTable w t) := by
      simpa using h0
    have hgo2 : ∀ j : Nat, j < k →
        (row_y + w.line_height_) + (j : Int) * w.line_height_ + w.line_height_ < w.height
          ∧ (offset + w.row_width_) + (j : Int) * w.row_width_ < count w := by
      intro j hj
      have := hgo (j + 1) (by omega)
      have e1 : ((j + 1 : Nat) : Int) * w.line_height_
          = (j : Int) * w.line_height_ + w.line_height_ := by push_cast; ring
      have e2 : ((j + 1 : Nat) : Int) * w.row_width_
          = (j : Int) * w.row_width_ + w.row_width_ := by push_cast; ring
      rw [e1, e2] at this
      omega
    have hstop2 : ¬ ((row_y + w.line_height_) + (k : Int) * w.line_height_ + w.line_height_
          < w.height ∧ (offset + w.row_width_) + (k : Int) * w.row_width_ < count w) := by
      have e1 : ((k + 1 : Nat) : Int) * w.line_height_
          = (k : Int) * w.line_height_ + w.line_height_ := by push_cast; ring
      have e2 : ((k + 1 : Nat) : Int) * w.row_width_
          = (k : Int) * w.row_width_ + w.row_width_ := by push_cast; ring
      rw [e1, e2] at hstop
      omega
    obtain ⟨t', hrun, ⟨e, he⟩, -⟩ := ih f
      (drawText env (setTable w t) offset).x_pos
      (offset + w.row_width_) (row_y + w.line_height_)
      (acc ++ [paintedRow env w offset row_y]) hgo2 hstop2 (by omega)
    obtain ⟨e0, he0⟩ := drawText_x_pos_append env (setTable w t) offset
    refine ⟨t', ?_, ⟨e0 ++ e, ?_⟩, fun _ => ⟨e, he⟩⟩
    · have hd1 : (drawLine env (setTable w t) offset).1
          = setTable w (drawText env (setTable w t) offset).x_pos :=
        drawLine_fst env (setTable w t) offset hne
      have hd2 : (drawLine env (setTable w t) offset).2
          = some { line := rowLine env w offset, fmt_list := drawFormats env w offset } := by
        rw [drawLine_snd env (setTable w t) offset hne, drawText_line, rowLine_setTable,
          drawFormats_setTable]
      rw [paintLoop_go env f _ offset row_y acc hc, hd1, hd2, range_succ_map_front]
      have hfun : (fun j : Nat => paintedRow env w (offset + ((j + 1 : Nat) : Int) * w.row_width_)
            (row_y + ((j + 1 : Nat) : Int) * w.line_height_))
          = (fun j : Nat => paintedRow env w (offset + w.row_width_ + (j : Int) * w.row_width_)
            (row_y + w.line_height_ + (j : Int) * w.line_height_)) := by
        funext j
        congr 1 <;> push_cast <;> ring
      rw [hfun]
      have hrow0 : paintedRow env w (offset + ((0 : Nat) : Int) * w.row_width_)
          (row_y + ((0 : Nat) : Int) * w.line_height_) = paintedRow env w offset row_y := by
        simp
      rw [hrow0]
      refine Eq.trans (b := paintLoop env f
          (setTable w (drawText env (setTable w t) offset).x_pos)
          (offset + w.row_width_) (row_y + w.line_height_)
          (acc ++ [paintedRow env w offset row_y])) rfl ?_
      rw [hrun, List.append_assoc]
      rfl
    · rw [he, he0, setTable_x_pos, List.append_assoc]

/-! ## Claim C8: rows and offset labels -/

theorem paintEvent_eq (env : Extern) (fuel : Nat) (w : Widget) (hne : w.data_ ≠ []) :
    paintEvent env fuel w
      = paintLoop env fuel (setTable w []) (w.verticalScrollBar.value * w.row_width_) 0 [] := by
  cases hd : w.data_ with
  | nil => exact absurd hd hne
  | cons a l => simp [paintEvent, hd, setTable]

theorem offsetChars_false_eq (w : Widget) (hne : w.data_ ≠ []) :
    offsetChars w false = if count w > 0xffff then 8 else 4 := by
  unfold offsetChars
  simp [isEmpty_eq_false w hne]

/-- C8: for a non-empty buffer of `n` bytes (`n < 2^31`), row width 16 or 8, vertical scroll
position 0 and a widget taller than `ceil(n / w) + 1` lines, `paintEvent` returns after
calling `drawLine` exactly `ceil(n / w)` times, for the row starts `0, w, 2w, ...` at
`row_y = 0, line_height_, ...`; row `i` covers `min(w, n - i * w)` bytes; and each line
begins with a space, the row start in lowercase hexadecimal zero-padded to exactly 4 digits
when `n <= 0xFFFF` and exactly 8 when `n > 0xFFFF`, and a space. -/
theorem C8_rows_and_offset_labels (env : Extern) (w : Widget) (fuel : Nat)
    (hne : w.data_ ≠ []) (hrw : w.row_width_ = 16 ∨ w.row_width_ = 8)
    (hvs : w.verticalScrollBar.value = 0) (hso : w.show_offset_ = true)
    (hlh : 0 ≤ w.line_height_)
    (hH : ((count w + w.row_width_ - 1) / w.row_width_ + 1) * w.line_height_ < w.height)
    (hint : count w < 2 ^ 31) (hfuel : w.data_.length ≤ fuel) :
    ∃ w' rows, paintEvent env fuel w = some (w', rows)
      ∧ (rows.length : Int) = (count w + w.row_width_ - 1) / w.row_width_
      ∧ ∀ i : Nat, i < rows.length →
          ∃ d, rows[i]? = some {
                offset := (i : Int) * w.row_width_
                row_y := (i : Int) * w.line_height_
                drawn := some d }
            ∧ (rowBytes w ((i : Int) * w.row_width_) : Int)
                = min w.row_width_ (count w - (i : Int) * w.row_width_)
            ∧ d.line.take ((if count w > 0xffff then 8 else 4) + 2)
                = [' '] ++ argHex ((i : Int) * w.row_width_) (if count w > 0xffff then 8 else 4)
                    '0' ++ [' ']
            ∧ (argHex ((i : Int) * w.row_width_) (if count w > 0xffff then 8 else 4) '0').length
                = (if count w > 0xffff then 8 else 4) := by
  have hn0 : 0 < count w := by
    cases hd : w.data_ with
    | nil => exact absurd hd hne
    | cons a l => simp [count, hd]
  have hcnt : count w = (w.data_.length : Int) := rfl
  have hrwpos : 0 < w.row_width_ := by rcases hrw with h | h <;> omega
  have hK0 : 0 ≤ (count w + w.row_width_ - 1) / w.row_width_ :=
    Int.ediv_nonneg (by omega) hrwpos.le
  obtain ⟨k, hk⟩ : ∃ k : Nat, (k : Int) = (count w + w.row_width_ - 1) / w.row_width_ :=
    ⟨_, Int.toNat_of_nonneg hK0⟩
  have hgo : ∀ j : Nat, j < k →
      (0 : Int) + (j : Int) * w.line_height_ + w.line_height_ < w.height
        ∧ (0 : Int) + (j : Int) * w.row_width_ < count w := by
    intro j hj
    constructor
    · have h1 : ((j : Int) + 1) * w.line_height_ ≤ ((k : Int) + 1) * w.line_height_ :=
        Int.mul_le_mul_of_nonneg_right (by omega) hlh
      rw [← hk] at hH
      have e : ((j : Int) + 1) * w.line_height_ = (j : Int) * w.line_height_ + w.line_height_ := by
        ring
      omega
    · rcases hrw with h | h <;> rw [h] at hk ⊢ <;> omega
  have hstop : ¬ ((0 : Int) + (k : Int) * w.line_height_ + w.line_height_ < w.height
      ∧ (0 : Int) + (k : Int) * w.row_width_ < count w) := by
    rintro ⟨-, h2⟩
    rcases hrw with h | h <;> rw [h] at hk h2 <;> omega
  have hkf : k ≤ fuel := by
    have : (k : Int) ≤ count w := by
      rcases hrw with h | h <;> rw [h] at hk <;> omega
    omega
  obtain ⟨t', hrun, -, -⟩ := paintLoop_spec env w hne k fuel [] 0 0 [] hgo hstop hkf
  simp only [List.nil_append, Int.zero_add] at hrun
  refine ⟨setTable w t', (List.range k).map (fun (j : Nat) =>
    paintedRow env w ((j : Int) * w.row_width_) ((j : Int) * w.line_height_)), ?_, ?_, ?_⟩
  · rw [paintEvent_eq env fuel w hne, hvs, Int.zero_mul]
    exact hrun
  · simp [hk]
  · intro i hi
    have hik : i < k := by simpa using hi
    have hoffs : (i : Int) * w.row_width_ < count w := by
      have := (hgo i hik).2
      omega
    have hoff0 : 0 ≤ (i : Int) * w.row_width_ := Int.mul_nonneg (by omega) hrwpos.le
    obtain ⟨hol, hdig⟩ := offsetText_length w ((i : Int) * w.row_width_) hoff0 hoffs hint
    have hocf := offsetChars_false_eq w hne
    have hoct := offsetChars_true_eq w
    refine ⟨{ line := rowLine env w ((i : Int) * w.row_width_),
              fmt_list := drawFormats env w ((i : Int) * w.row_width_) }, ?_,
      rowBytes_cast w _ hrwpos hoffs, ?_, ?_⟩
    · simp [List.getElem?_map, List.getElem?_range hik, paintedRow]
    · have hl : (offsetText w ((i : Int) * w.row_width_)).length
          = (if count w > 0xffff then 8 else 4) + 2 := by
        rw [hoct, hocf] at hol
        split at hol <;> split <;> omega
      have := rowLine_take env w ((i : Int) * w.row_width_) hso
      rw [hl] at this
      rw [this, offsetText, hocf]
    · rw [hocf] at hdig
      unfold argHex qstringFill
      simp only [List.length_append, List.length_replicate]
      split at hdig <;> split <;> omega

/-- C8 on the buffer of 32 bytes with row width 16: exactly 2 rows, at offsets 0 and 16,
labelled `0000` and `0010`. -/
theorem C8_rows_and_offset_labels_witness :
    ∃ w' rows, paintEvent demoEnv 32 (demoWidget (demoBytes 32) .BYTES_HEX 2 16 200)
        = some (w', rows)
      ∧ rows.length = 2
      ∧ (∃ d, rows[0]? = some { offset := 0, row_y := 0, drawn := some d }
          ∧ d.line.take 6 = [' ', '0', '0', '0', '0', ' '])
      ∧ (∃ d, rows[1]? = some { offset := 16, row_y := 16, drawn := some d }
          ∧ d.line.take 6 = [' ', '0', '0', '1', '0', ' ']) := by
  obtain ⟨w', rows, hp, hlen, hrows⟩ := C8_rows_and_offset_labels demoEnv
    (demoWidget (demoBytes 32) .BYTES_HEX 2 16 200) 32 (by simp [demoWidget, demoBytes])
    (Or.inl rfl) rfl rfl (by decide) (by decide) (by decide) (by decide)
  have hl : rows.length = 2 := by
    have : (rows.length : Int) = 2 := hlen.trans (by decide)
    omega
  obtain ⟨d0, h0, -, h0t, -⟩ := hrows 0 (by omega)
  obtain ⟨d1, h1, -, h1t, -⟩ := hrows 1 (by omega)
  exact ⟨w', rows, hp, hl, ⟨d0, h0.trans rfl, h0t.trans (by decide)⟩,
    ⟨d1, h1.trans rfl, h1t.trans (by decide)⟩⟩

/-! ## The pixel table the first row builds -/

theorem hexBody_x_pos_append (env : Extern) (w : Widget) (b : Bool) (offset slop : Int)
    (st : LineBuild) (p : Int) :
    ∃ e, (hexBody env w b offset slop st p).x_pos = st.x_pos ++ e := by
  unfold hexBody
  cases isSeparator env offset p <;> cases b
  · exact ⟨[], by simp⟩
  · exact ⟨_, by simp; rfl⟩
  · exact ⟨_, by simp; rfl⟩
  · exact ⟨_, by simp only [if_true, List.append_assoc]; rfl⟩

set_option maxRecDepth 100000

/-- C5 fails on the code in two ways. (1) Buffer of 17 bytes, hex mode, font width 2, line
height 16: after the paint, the point `(20, 16)`, over column 1 of the second row (a column
past the final byte 16), resolves to 17 = `data_.count()`, not to -1. (2) Buffer of 32 bytes:
the composed lines are 75 characters (150 pixels) wide, the pixel table has 152 entries after
the paint, and the point `(150, 0)`, right of the rendered line, resolves to byte 7. -/
theorem C5_lookup_outside_buffer :
    count (demoWidget (demoBytes 17) .BYTES_HEX 2 16 200) = 17
    ∧ (paintEvent demoEnv 17 (demoWidget (demoBytes 17) .BYTES_HEX 2 16 200)).map
        (fun r => byteOffsetAtPixel r.1 { x := 20, y := 16 }) = some 17
    ∧ (paintEvent demoEnv 32 (demoWidget (demoBytes 32) .BYTES_HEX 2 16 200)).map
        (fun r => (r.2.map (fun row => row.drawn.map (fun d => d.line.length)),
          r.1.x_pos_to_column_.length, byteOffsetAtPixel r.1 { x := 150, y := 0 }))
        = some ([some 75, some 75], 152, 7) := by
  refine ⟨by decide, by decide, by decide⟩

end ByteViewText
